import Mathlib

/-!
Shallow embedding of the Cyberdark browser extension's settings-validation
layer (src/validate.js) and the style-application decision logic of the
content script (src/content.js), together with theorems settling the frozen
claims about them.

Modelling conventions:
* JS numbers are modelled as `JSNum`: `NaN`, the two infinities, or an exact
  rational.  The rationals idealise IEEE doubles; every concrete number used
  by the claims (small integers, 1.5, 2.2) is exactly representable.
* JS values are `JSValue`.  Objects carry their own enumerable string-keyed
  properties as an ordered association list, plus a flag recording whether
  the object was created with a null prototype (`Object.create(null)`).
  Property reads return own properties only; the one place where the
  prototype chain is behaviourally relevant to the modelled code — the
  method call `parsed.hasOwnProperty(key)` in `sanitizePerSiteOverrides` —
  is modelled explicitly (`hasOwnBroken`): the call throws when the receiver
  has a null prototype or shadows `hasOwnProperty` with an own,
  non-callable property.
* `for...in` enumeration is modelled as the insertion-ordered field list.
  (JS additionally fronts integer-like keys in numeric order; no key
  relevant to any claim — domain names, the forbidden keys,
  `hasOwnProperty` — is integer-like.)
* `String.prototype.toLowerCase` is modelled character-wise on ASCII;
  the few non-ASCII divergences (e.g. U+212A) are rejected by the domain
  regex in either semantics.
* Fallible code (the thrown `TypeError` of the `hasOwnProperty` call)
  is modelled with `Except String`.
-/

/-- JS numbers: NaN, ±Infinity, or a finite value (idealised as `ℚ`). -/
inductive JSNum where
  | nan
  | posInf
  | negInf
  | finite (q : ℚ)
deriving DecidableEq

namespace JSNum

/-- JS multiplication (only the cases reachable from the embedded code
matter; the table follows IEEE rules: NaN propagates, `Inf * 0 = NaN`). -/
def jsMul : JSNum → JSNum → JSNum
  | nan, _ => nan
  | _, nan => nan
  | posInf, posInf => posInf
  | posInf, negInf => negInf
  | negInf, posInf => negInf
  | negInf, negInf => posInf
  | posInf, finite q => if q = 0 then nan else if 0 < q then posInf else negInf
  | finite q, posInf => if q = 0 then nan else if 0 < q then posInf else negInf
  | negInf, finite q => if q = 0 then nan else if 0 < q then negInf else posInf
  | finite q, negInf => if q = 0 then nan else if 0 < q then negInf else posInf
  | finite a, finite b => finite (a * b)

/-- JS addition with IEEE special cases. -/
def jsAdd : JSNum → JSNum → JSNum
  | nan, _ => nan
  | _, nan => nan
  | posInf, negInf => nan
  | negInf, posInf => nan
  | posInf, _ => posInf
  | _, posInf => posInf
  | negInf, _ => negInf
  | _, negInf => negInf
  | finite a, finite b => finite (a + b)

/-- JS `<`: any comparison against NaN is false. -/
def jsLt : JSNum → JSNum → Bool
  | nan, _ => false
  | _, nan => false
  | negInf, negInf => false
  | negInf, _ => true
  | _, negInf => false
  | posInf, _ => false
  | finite _, posInf => true
  | finite a, finite b => decide (a < b)

/-- JS `<=` (equivalently, `b >= a`): any comparison against NaN is false. -/
def jsLe : JSNum → JSNum → Bool
  | nan, _ => false
  | _, nan => false
  | negInf, _ => true
  | _, negInf => false
  | _, posInf => true
  | posInf, finite _ => false
  | finite a, finite b => decide (a ≤ b)

/-- Finiteness test (`isFinite`). -/
def isFiniteNum : JSNum → Bool
  | finite _ => true
  | _ => false

end JSNum

/-- JS values.  Objects record a null-prototype flag and their own
enumerable properties in insertion order. -/
inductive JSValue where
  | null
  | undefined
  | bool (b : Bool)
  | num (n : JSNum)
  | str (s : String)
  | arr (elems : List JSValue)
  | obj (nullProto : Bool) (fields : List (String × JSValue))

/-- Character-class helpers use `Char.toNat` to keep proofs in `Nat`. -/
def isDigitChar (c : Char) : Bool := 48 ≤ c.toNat && c.toNat ≤ 57

def isHexDigitChar (c : Char) : Bool :=
  (48 ≤ c.toNat && c.toNat ≤ 57) || (97 ≤ c.toNat && c.toNat ≤ 102) ||
    (65 ≤ c.toNat && c.toNat ≤ 70)

/-- Letters, case-insensitively (the source regexes carry the `i` flag). -/
def isAlphaChar (c : Char) : Bool :=
  (97 ≤ c.toNat && c.toNat ≤ 122) || (65 ≤ c.toNat && c.toNat ≤ 90)

/-- Characters permitted in a non-final domain label: `[a-z0-9-]` with the
`i` flag, i.e. letters of either case, digits, hyphen. -/
def isLabelChar (c : Char) : Bool :=
  isAlphaChar c || isDigitChar c || c.toNat = 45

/-- Code points treated as whitespace by `String.prototype.trim` and by
string-to-number coercion (the common set: tab, LF, VT, FF, CR, space,
NBSP, LS, PS, BOM). -/
def jsWsCodes : List Nat := [9, 10, 11, 12, 13, 32, 160, 8232, 8233, 65279]

def isJsWs (c : Char) : Bool := jsWsCodes.contains c.toNat

/-- `trim()`: strip leading and trailing JS whitespace. -/
def jsTrim (cs : List Char) : List Char :=
  ((cs.dropWhile isJsWs).reverse.dropWhile isJsWs).reverse

/-- ASCII model of `toLowerCase()`. -/
def toLowerChar (c : Char) : Char :=
  if 65 ≤ c.toNat ∧ c.toNat ≤ 90 then Char.ofNat (c.toNat + 32) else c

/-- Split a character list at every occurrence of `sep`, like
`String.prototype.split` with a single-character separator. -/
def splitOnChar (sep : Char) : List Char → List (List Char)
  | [] => [[]]
  | c :: rest =>
    let r := splitOnChar sep rest
    if c = sep then [] :: r
    else
      match r with
      | h :: t => (c :: h) :: t
      | [] => [[c]]

/-- Value of a digit string, most significant first. -/
def digitsToNat (cs : List Char) : Nat :=
  cs.foldl (fun n c => 10 * n + (c.toNat - 48)) 0

/-- Value of a digit string in a given radix using a digit-value map. -/
def radixToNat (base : Nat) (val : Char → Nat) (cs : List Char) : Nat :=
  cs.foldl (fun n c => base * n + val c) 0

def hexVal (c : Char) : Nat :=
  if 48 ≤ c.toNat ∧ c.toNat ≤ 57 then c.toNat - 48
  else if 97 ≤ c.toNat ∧ c.toNat ≤ 102 then c.toNat - 87
  else if 65 ≤ c.toNat ∧ c.toNat ≤ 70 then c.toNat - 55
  else 0

/-- Exponent part of a decimal literal: optional sign then one or more
digits consuming the whole remainder, else failure. -/
def parseExp (cs : List Char) : Option Int :=
  match cs with
  | [] => none
  | c :: rest =>
    if c.toNat = 43 then
      if rest ≠ [] ∧ rest.all isDigitChar then some (digitsToNat rest : Int) else none
    else if c.toNat = 45 then
      if rest ≠ [] ∧ rest.all isDigitChar then some (-(digitsToNat rest : Int)) else none
    else
      if cs.all isDigitChar then some (digitsToNat cs : Int) else none

/-- Multiplication by a signed power of ten (kept free of `ℚ` division,
which does not reduce computationally). -/
def mulPow10 (q : ℚ) (ex : Int) : ℚ :=
  if 0 ≤ ex then q * (10 : ℚ) ^ ex.toNat else q * mkRat 1 (10 ^ (-ex).toNat)

/-- Decimal literal: `digits [. digits] [e sign digits]`, needing at least
one digit around the point and no leftover input; otherwise NaN. -/
def parseDecimal (cs : List Char) : JSNum :=
  let intD := cs.takeWhile isDigitChar
  let r1 := cs.dropWhile isDigitChar
  let fr :=
    match r1 with
    | c :: rest =>
      if c.toNat = 46 then (rest.takeWhile isDigitChar, rest.dropWhile isDigitChar)
      else (([] : List Char), r1)
    | [] => (([] : List Char), ([] : List Char))
  let fracD := fr.1
  let r2 := fr.2
  if intD = [] ∧ fracD = [] then .nan
  else
    let mantissa : ℚ :=
      (digitsToNat intD : ℚ) + mkRat (digitsToNat fracD) (10 ^ fracD.length)
    match r2 with
    | [] => .finite mantissa
    | c :: rest =>
      if c.toNat = 101 ∨ c.toNat = 69 then
        match parseExp rest with
        | some ex => .finite (mulPow10 mantissa ex)
        | none => .nan
      else .nan

/-- Non-decimal integer literal (`0x`/`0o`/`0b`) with at least one digit. -/
def parseRadixBody (pred : Char → Bool) (base : Nat) (val : Char → Nat)
    (cs : List Char) : JSNum :=
  if cs ≠ [] ∧ cs.all pred then .finite (radixToNat base val cs : ℚ) else .nan

/-- Unsigned numeric literal as accepted by `Number(string)`:
`Infinity`, a non-decimal integer literal, or a decimal literal. -/
def parseUnsigned (cs : List Char) : JSNum :=
  if cs = "Infinity".data then .posInf
  else
    match cs with
    | c0 :: c1 :: rest =>
      if c0.toNat = 48 ∧ (c1.toNat = 120 ∨ c1.toNat = 88) then
        parseRadixBody isHexDigitChar 16 hexVal rest
      else if c0.toNat = 48 ∧ (c1.toNat = 111 ∨ c1.toNat = 79) then
        parseRadixBody (fun c => 48 ≤ c.toNat && c.toNat ≤ 55) 8 (fun c => c.toNat - 48) rest
      else if c0.toNat = 48 ∧ (c1.toNat = 98 ∨ c1.toNat = 66) then
        parseRadixBody (fun c => c.toNat = 48 || c.toNat = 49) 2 (fun c => c.toNat - 48) rest
      else parseDecimal cs
    | _ => parseDecimal cs

/-- Signed part: per ES, sign prefixes only `Infinity` or a decimal literal
(never a radix-prefixed literal). -/
def parseAfterSign (cs : List Char) : JSNum :=
  if cs = "Infinity".data then .posInf else parseDecimal cs

def negNum : JSNum → JSNum
  | .nan => .nan
  | .posInf => .negInf
  | .negInf => .posInf
  | .finite q => .finite (-q)

/-- `Number(string)`: trim, empty → 0, optional sign, then a numeric
literal; anything else is NaN. -/
def stringToNumberL (cs0 : List Char) : JSNum :=
  let cs := jsTrim cs0
  match cs with
  | [] => .finite 0
  | c :: rest =>
    if c.toNat = 43 then parseAfterSign rest
    else if c.toNat = 45 then negNum (parseAfterSign rest)
    else parseUnsigned cs

def stringToNumber (s : String) : JSNum := stringToNumberL s.data

/-- UTF-16 code units of a character (`charCodeAt` semantics). -/
def utf16UnitsOfChar (c : Char) : List Nat :=
  if c.toNat < 65536 then [c.toNat]
  else [55296 + (c.toNat - 65536) / 1024, 56320 + (c.toNat - 65536) % 1024]

/-- JS `string.length` (UTF-16 code units). -/
def utf16Len (cs : List Char) : Nat :=
  (cs.map (fun c => (utf16UnitsOfChar c).length)).sum

/-- The UTF-16 code-unit sequence of a string. -/
def utf16Units (s : String) : List Nat :=
  (s.data.map utf16UnitsOfChar).flatten

def stripTrailingZeroChars (cs : List Char) : List Char :=
  (cs.reverse.dropWhile (fun c => c.toNat = 48)).reverse

def padLeftZeros (cs : List Char) (k : Nat) : List Char :=
  List.replicate (k - cs.length) (Char.ofNat 48) ++ cs

/-- Decimal rendering of a rational whose denominator divides a power of
ten (every float-representable non-integer does).  JS's exponent notation
for very large/small magnitudes is not modelled; no claim exercises it. -/
def ratJsonRepr (q : ℚ) : String :=
  if q.den = 1 then Int.repr q.num
  else
    match (List.range 65).find? (fun k => (10 ^ k) % q.den = 0) with
    | some k =>
      let scaled : Int := q.num * (((10 ^ k) / q.den : Nat) : Int)
      let sign := if scaled < 0 then "-" else ""
      let a := scaled.natAbs
      let fdigits := stripTrailingZeroChars (padLeftZeros (Nat.repr (a % 10 ^ k)).data k)
      sign ++ Nat.repr (a / 10 ^ k) ++ "." ++ String.mk fdigits
    | none => Int.repr q.num ++ "/" ++ Nat.repr q.den

namespace JSValue

/-- ToBoolean: the falsy values are `null`, `undefined`, `false`, `NaN`,
`±0`, and the empty string. -/
def jsTruthy : JSValue → Bool
  | .null => false
  | .undefined => false
  | .bool b => b
  | .num .nan => false
  | .num (.finite q) => decide (q ≠ 0)
  | .num _ => true
  | .str s => !s.data.isEmpty
  | .arr _ => true
  | .obj _ _ => true

/-- `typeof v === 'object'` (true for objects, arrays and `null`). -/
def isTypeofObject : JSValue → Bool
  | .null => true
  | .obj _ _ => true
  | .arr _ => true
  | _ => false

/-- `typeof v === 'object' && v !== null`. -/
def isObjectNonNull : JSValue → Bool
  | .obj _ _ => true
  | .arr _ => true
  | _ => false

def isUndef : JSValue → Bool
  | .undefined => true
  | _ => false

/-- Own-property lookup in an association list (first match wins). -/
def assocGet : List (String × JSValue) → String → JSValue
  | [], _ => .undefined
  | kv :: rest, k => if kv.1 = k then kv.2 else assocGet rest k

/-- Property read.  Own properties of objects; anything else yields
`undefined` (the embedded code never reads inherited or index properties
through this helper). -/
def getProp (v : JSValue) (k : String) : JSValue :=
  match v with
  | .obj _ fs => assocGet fs k
  | _ => .undefined

/-- Property write on an association list: overwrite in place if the key
exists (keeping its position, as JS does), else append. -/
def assocSet (l : List (String × JSValue)) (k : String) (v : JSValue) :
    List (String × JSValue) :=
  match l with
  | [] => [(k, v)]
  | kv :: rest => if kv.1 = k then (k, v) :: rest else kv :: assocSet rest k v

/-- Own enumerable string-keyed properties, as visited by `for...in` and
`Object.assign`: an object's fields; an array's or string's indices;
nothing for primitives. -/
def ownEnumerable : JSValue → List (String × JSValue)
  | .obj _ fs => fs
  | .arr l => l.enum.map (fun p => (Nat.repr p.1, p.2))
  | .str s => s.data.enum.map (fun p => (Nat.repr p.1, .str (String.mk [p.2])))
  | _ => []

/-- `Object.assign(target, source)` on field lists. -/
def jsAssign (tgt : List (String × JSValue)) (src : JSValue) :
    List (String × JSValue) :=
  (ownEnumerable src).foldl (fun acc kv => assocSet acc kv.1 kv.2) tgt

def isNullOrUndef : JSValue → Bool
  | .null => true
  | .undefined => true
  | _ => false

/-- `String(v)` (ToString/ToPrimitive with string hint).  Finite numbers
print via `ratJsonRepr`, exact for the decimally-representable rationals
that model JS floats; arrays join their recursively converted elements
with commas, rendering `null`/`undefined` elements as empty; plain
objects print as `[object Object]`. -/
def jsToStringL : JSValue → List Char
  | .null => "null".data
  | .undefined => "undefined".data
  | .bool b => if b then "true".data else "false".data
  | .num .nan => "NaN".data
  | .num .posInf => "Infinity".data
  | .num .negInf => "-Infinity".data
  | .num (.finite q) => (ratJsonRepr q).data
  | .str s => s.data
  | .arr l =>
    List.intercalate [Char.ofNat 44]
      (l.attach.map (fun p => if isNullOrUndef p.1 then [] else jsToStringL p.1))
  | .obj _ _ => "[object Object]".data
termination_by v => sizeOf v
decreasing_by
  have := List.sizeOf_lt_of_mem p.2
  simp only [JSValue.arr.sizeOf_spec]
  omega

/-- `Number(v)` (ToNumber).  Objects and arrays convert through
ToPrimitive/ToString and then string-to-number — so `[]` is `0`, `[5]` is
`5`, and a plain object's `[object Object]` is NaN. -/
def jsToNumber : JSValue → JSNum
  | .null => .finite 0
  | .undefined => .nan
  | .bool b => .finite (if b then 1 else 0)
  | .num n => n
  | .str s => stringToNumber s
  | .arr l => stringToNumberL (jsToStringL (.arr l))
  | .obj p fs => stringToNumberL (jsToStringL (.obj p fs))

/-- The `parsed.hasOwnProperty(key)` call in `sanitizePerSiteOverrides`
throws a `TypeError` when the receiver cannot supply the builtin: a
null-prototype object, or one that shadows `hasOwnProperty` with an own
(necessarily non-callable, in this value model) property.  Arrays and
boxed primitives always inherit the builtin. -/
def hasOwnBroken : JSValue → Bool
  | .obj nullProto fs => nullProto || fs.any (fun kv => kv.1 = "hasOwnProperty")
  | _ => false

end JSValue

open JSValue

/-! ## validate.js — the SettingsSanitizer -/

/-- `^#([0-9a-fA-F]{3}|[0-9a-fA-F]{6})$`. -/
def hexColorMatch (cs : List Char) : Bool :=
  match cs with
  | c :: rest =>
    c.toNat = 35 && (rest.length = 3 || rest.length = 6) && rest.all isHexDigitChar
  | [] => false

/-- `sanitizeHexColor(color, fallback)` (validate.js:17). -/
def sanitizeHexColor (color fallback : JSValue) : JSValue :=
  match color with
  | .str s =>
    if hexColorMatch s.data then .str (String.mk (s.data.map toLowerChar))
    else fallback
  | _ => fallback

/-- `Math.max(mn, Math.min(mx, num))` applied to a coerced number, with the
NaN / non-finite rejection of the source. -/
def numClamp (n : JSNum) (mn mx df : ℚ) : ℚ :=
  match n with
  | .finite q => max mn (min mx q)
  | _ => df

/-- `sanitizeNumericRange(value, min, max, defaultValue)` (validate.js:57). -/
def sanitizeNumericRange (value : JSValue) (mn mx df : ℚ) : ℚ :=
  match value with
  | .null => df
  | .undefined => df
  | .str s => if s.data.isEmpty then df else numClamp (jsToNumber (.str s)) mn mx df
  | v => numClamp (jsToNumber v) mn mx df

/-- `sanitizeFontSize` (validate.js:75). -/
def sanitizeFontSize (fontSize : JSValue) : ℚ := sanitizeNumericRange fontSize 12 24 16

/-- `sanitizeLineHeight` (validate.js:84). -/
def sanitizeLineHeight (lineHeight : JSValue) : ℚ :=
  sanitizeNumericRange lineHeight 1 2.2 1.5

/-- `^([a-z0-9-]+\.)*[a-z0-9-]+\.[a-z]{2,}$|^localhost$` with the `i` flag:
at least two dot-separated labels, all but the last non-empty over
`[a-z0-9-]`, the last alphabetic of length ≥ 2; or exactly `localhost`. -/
def domainRegexMatch (cs : List Char) : Bool :=
  (let labels := splitOnChar (Char.ofNat 46) cs
   2 ≤ labels.length &&
     (labels.dropLast.all fun l => !l.isEmpty && l.all isLabelChar) &&
     (let tld := labels.getLastD []
      2 ≤ tld.length && tld.all isAlphaChar))
  || decide (cs = "localhost".data)

/-- Core of `sanitizeDomain` on an actual string (validate.js:97). -/
def sanitizeDomainStr (s : String) : Option String :=
  let cs := (jsTrim s.data).map toLowerChar
  if cs.isEmpty then none
  else if 253 < utf16Len cs then none
  else if domainRegexMatch cs then some (String.mk cs)
  else none

/-- `sanitizeDomain(domain)`: non-strings are rejected. -/
def sanitizeDomain (domain : JSValue) : Option String :=
  match domain with
  | .str s => sanitizeDomainStr s
  | _ => none

def stripTrailingCR (l : List Char) : List Char :=
  match l.reverse with
  | c :: rest => if c.toNat = 13 then rest.reverse else l
  | [] => l

/-- `split(/\r?\n/)`. -/
def splitLinesCRLF (cs : List Char) : List (List Char) :=
  (splitOnChar (Char.ofNat 10) cs).map stripTrailingCR

/-- `sanitizeDomainList(domains)` (validate.js:125). -/
def sanitizeDomainList (domains : JSValue) : List String :=
  let domainArray : List JSValue :=
    match domains with
    | .str s => (splitLinesCRLF s.data).map (fun cs => .str (String.mk cs))
    | .arr l => l
    | _ => []
  ((domainArray.map sanitizeDomain).filterMap id).take 1000

/-- `^([0-1][0-9]|2[0-3]):([0-5][0-9])$`. -/
def validTimeString (s : String) : Bool :=
  match s.data with
  | [h1, h2, c, m1, m2] =>
    c.toNat = 58 &&
      ((h1.toNat = 48 || h1.toNat = 49) && isDigitChar h2 ||
        (h1.toNat = 50 && 48 ≤ h2.toNat && h2.toNat ≤ 51)) &&
      (48 ≤ m1.toNat && m1.toNat ≤ 53) && isDigitChar m2
  | _ => false

/-- Minutes since midnight of a valid `HH:MM` string (specification-side
reading of the time format). -/
def timeMinutes (s : String) : Nat :=
  match s.data with
  | [h1, h2, _, m1, m2] =>
    ((h1.toNat - 48) * 10 + (h2.toNat - 48)) * 60 +
      ((m1.toNat - 48) * 10 + (m2.toNat - 48))
  | _ => 0

/-- `sanitizeTimeString(time, fallback)` (validate.js:152). -/
def sanitizeTimeString (time : JSValue) (fallback : String) : String :=
  match time with
  | .str s => if validTimeString s then s else fallback
  | _ => fallback

def validModes : List String :=
  ["none", "protanopia", "deuteranopia", "tritanopia", "achromatopsia"]

/-- `sanitizeColorBlindMode(mode)` (validate.js:174). -/
def sanitizeColorBlindMode (mode : JSValue) : String :=
  match mode with
  | .bool true => "protanopia"
  | .bool false => "none"
  | .str s => if validModes.contains s then s else "none"
  | _ => "none"

/-- A conditional single-entry list: one `if (cond) safe[domain].k = v;`
assignment of the source. -/
def condEntry (c : Bool) (k : String) (v : JSValue) : List (String × JSValue) :=
  if c then [(k, v)] else []

/-- The per-domain override sanitization body (validate.js:231-246):
sequential conditional assignments onto `Object.create(null)`. -/
def entrySanitize (ds : JSValue) : List (String × JSValue) :=
  condEntry (jsTruthy (getProp ds "color1")) "color1"
      (sanitizeHexColor (getProp ds "color1") (.str "#00ffff")) ++
  condEntry (jsTruthy (getProp ds "color2")) "color2"
      (sanitizeHexColor (getProp ds "color2") (.str "#00ff00")) ++
  condEntry (jsTruthy (getProp ds "color3")) "color3"
      (sanitizeHexColor (getProp ds "color3") (.str "#ff00ff")) ++
  condEntry (jsTruthy (getProp ds "color4")) "color4"
      (sanitizeHexColor (getProp ds "color4") (.str "#ff0000")) ++
  condEntry (!(isUndef (getProp ds "textShadow"))) "textShadow"
      (.bool (jsTruthy (getProp ds "textShadow"))) ++
  condEntry (!(isUndef (getProp ds "highContrast"))) "highContrast"
      (.bool (jsTruthy (getProp ds "highContrast"))) ++
  condEntry (!(isUndef (getProp ds "focusOutline"))) "focusOutline"
      (.bool (jsTruthy (getProp ds "focusOutline"))) ++
  condEntry (!(isUndef (getProp ds "reducedMotion"))) "reducedMotion"
      (.bool (jsTruthy (getProp ds "reducedMotion"))) ++
  condEntry (jsTruthy (getProp ds "fontSize")) "fontSize"
      (.num (.finite (sanitizeFontSize (getProp ds "fontSize")))) ++
  condEntry (jsTruthy (getProp ds "lineHeight")) "lineHeight"
      (.num (.finite (sanitizeLineHeight (getProp ds "lineHeight")))) ++
  condEntry (jsTruthy (getProp ds "colorBlindMode")) "colorBlindMode"
      (.str (sanitizeColorBlindMode (getProp ds "colorBlindMode")))

def forbiddenKey (k : String) : Bool :=
  k == "__proto__" || k == "constructor" || k == "prototype"

/-- The `for...in` loop of `sanitizePerSiteOverrides` (validate.js:214-247).
Each iteration first performs the `parsed.hasOwnProperty(key)` call, which
throws when the receiver cannot supply the builtin. -/
def overridesLoop (parsed : JSValue) :
    List (String × JSValue) → List (String × JSValue) →
    Except String (List (String × JSValue))
  | [], acc => .ok acc
  | kv :: rest, acc =>
    if hasOwnBroken parsed then .error "TypeError"
    else if forbiddenKey kv.1 then overridesLoop parsed rest acc
    else
      match sanitizeDomainStr kv.1 with
      | none => overridesLoop parsed rest acc
      | some d =>
        if isObjectNonNull kv.2 then
          overridesLoop parsed rest (assocSet acc d (.obj true (entrySanitize kv.2)))
        else overridesLoop parsed rest acc

/-- Loop plus the 100-entry cap (validate.js:249-259). -/
def sanitizeParsedOverrides (parsed : JSValue) : Except String JSValue :=
  match overridesLoop parsed (ownEnumerable parsed) [] with
  | .error e => .error e
  | .ok safe => .ok (.obj true (if 100 < safe.length then safe.take 100 else safe))

/-! JSON.parse, fuel-indexed recursive-descent (used by the string branch of
`sanitizePerSiteOverrides`).  Number syntax is modelled slightly leniently
(leading zeros accepted); values are exact rationals. -/

def jsonSkipWs (cs : List Char) : List Char :=
  cs.dropWhile (fun c => c.toNat = 32 || c.toNat = 9 || c.toNat = 10 || c.toNat = 13)

def parseJsonStringBody : Nat → List Char → Option (List Char × List Char)
  | 0, _ => none
  | _, [] => none
  | fuel + 1, c :: rest =>
    if c.toNat = 34 then some ([], rest)
    else if c.toNat = 92 then
      match rest with
      | [] => none
      | e :: rest2 =>
        let cont := fun (ch : Char) (tl : List Char) =>
          (parseJsonStringBody fuel tl).map (fun p => (ch :: p.1, p.2))
        if e.toNat = 34 then cont (Char.ofNat 34) rest2
        else if e.toNat = 92 then cont (Char.ofNat 92) rest2
        else if e.toNat = 47 then cont (Char.ofNat 47) rest2
        else if e.toNat = 98 then cont (Char.ofNat 8) rest2
        else if e.toNat = 102 then cont (Char.ofNat 12) rest2
        else if e.toNat = 110 then cont (Char.ofNat 10) rest2
        else if e.toNat = 114 then cont (Char.ofNat 13) rest2
        else if e.toNat = 116 then cont (Char.ofNat 9) rest2
        else if e.toNat = 117 then
          match rest2 with
          | h1 :: h2 :: h3 :: h4 :: rest3 =>
            if isHexDigitChar h1 && isHexDigitChar h2 && isHexDigitChar h3 &&
                isHexDigitChar h4 then
              cont (Char.ofNat
                (hexVal h1 * 4096 + hexVal h2 * 256 + hexVal h3 * 16 + hexVal h4)) rest3
            else none
          | _ => none
        else none
    else if c.toNat < 32 then none
    else (parseJsonStringBody fuel rest).map (fun p => (c :: p.1, p.2))

def parseJsonNumberBody (cs : List Char) : Option (ℚ × List Char) :=
  let intD := cs.takeWhile isDigitChar
  let r1 := cs.dropWhile isDigitChar
  if intD.isEmpty then none
  else
    let fr :=
      match r1 with
      | c :: rest =>
        if c.toNat = 46 ∧ (rest.takeWhile isDigitChar) ≠ [] then
          (rest.takeWhile isDigitChar, rest.dropWhile isDigitChar)
        else (([] : List Char), r1)
      | [] => (([] : List Char), ([] : List Char))
    let mant : ℚ := (digitsToNat intD : ℚ) + mkRat (digitsToNat fr.1) (10 ^ fr.1.length)
    match fr.2 with
    | c :: rest =>
      if c.toNat = 101 ∨ c.toNat = 69 then
        match rest with
        | e1 :: erest =>
          if e1.toNat = 43 ∧ (erest.takeWhile isDigitChar) ≠ [] then
            some (mulPow10 mant (digitsToNat (erest.takeWhile isDigitChar) : Int),
              erest.dropWhile isDigitChar)
          else if e1.toNat = 45 ∧ (erest.takeWhile isDigitChar) ≠ [] then
            some (mulPow10 mant (-(digitsToNat (erest.takeWhile isDigitChar) : Int)),
              erest.dropWhile isDigitChar)
          else if isDigitChar e1 then
            some (mulPow10 mant (digitsToNat (rest.takeWhile isDigitChar) : Int),
              rest.dropWhile isDigitChar)
          else none
        | [] => none
      else some (mant, fr.2)
    | [] => some (mant, ([] : List Char))

def parseJsonNumber (cs : List Char) : Option (ℚ × List Char) :=
  match cs with
  | c :: rest =>
    if c.toNat = 45 then (parseJsonNumberBody rest).map (fun p => (-p.1, p.2))
    else parseJsonNumberBody cs
  | [] => none

mutual

def parseJsonValue : Nat → List Char → Option (JSValue × List Char)
  | 0, _ => none
  | fuel + 1, cs0 =>
    let cs := jsonSkipWs cs0
    match cs with
    | [] => none
    | c :: rest =>
      if c.toNat = 123 then
        match jsonSkipWs rest with
        | d :: rest2 =>
          if d.toNat = 125 then some (.obj false [], rest2)
          else parseJsonMembers fuel (jsonSkipWs rest) []
        | [] => none
      else if c.toNat = 91 then
        match jsonSkipWs rest with
        | d :: rest2 =>
          if d.toNat = 93 then some (.arr [], rest2)
          else parseJsonElems fuel (jsonSkipWs rest) []
        | [] => none
      else if c.toNat = 34 then
        (parseJsonStringBody (rest.length + 1) rest).map
          (fun p => (.str (String.mk p.1), p.2))
      else if cs.take 4 = "true".data then some (.bool true, cs.drop 4)
      else if cs.take 5 = "false".data then some (.bool false, cs.drop 5)
      else if cs.take 4 = "null".data then some (.null, cs.drop 4)
      else (parseJsonNumber cs).map (fun p => (.num (.finite p.1), p.2))

def parseJsonMembers (fuel : Nat) (cs : List Char)
    (acc : List (String × JSValue)) : Option (JSValue × List Char) :=
  match fuel with
  | 0 => none
  | fuel + 1 =>
    match cs with
    | c :: rest =>
      if c.toNat = 34 then
        match parseJsonStringBody (rest.length + 1) rest with
        | some (key, rest2) =>
          match jsonSkipWs rest2 with
          | d :: rest3 =>
            if d.toNat = 58 then
              match parseJsonValue fuel rest3 with
              | some (v, rest4) =>
                let acc2 := assocSet acc (String.mk key) v
                match jsonSkipWs rest4 with
                | e :: rest5 =>
                  if e.toNat = 44 then parseJsonMembers fuel (jsonSkipWs rest5) acc2
                  else if e.toNat = 125 then some (.obj false acc2, rest5)
                  else none
                | [] => none
              | none => none
            else none
          | [] => none
        | none => none
      else none
    | [] => none

def parseJsonElems (fuel : Nat) (cs : List Char) (acc : List JSValue) :
    Option (JSValue × List Char) :=
  match fuel with
  | 0 => none
  | fuel + 1 =>
    match parseJsonValue fuel cs with
    | some (v, rest) =>
      let acc2 := acc ++ [v]
      match jsonSkipWs rest with
      | e :: rest2 =>
        if e.toNat = 44 then parseJsonElems fuel rest2 acc2
        else if e.toNat = 93 then some (.arr acc2, rest2)
        else none
      | [] => none
    | none => none

end

/-- `JSON.parse`, failing (like the caught exception) on trailing input or
syntax errors. -/
def jsonParse (s : String) : Option JSValue :=
  match parseJsonValue (2 * s.data.length + 2) s.data with
  | some (v, rest) => if (jsonSkipWs rest).isEmpty then some v else none
  | none => none

/-- `sanitizePerSiteOverrides(overrides)` (validate.js:194).  The thrown
`TypeError` of the `hasOwnProperty` call surfaces as `Except.error`. -/
def sanitizePerSiteOverrides (overrides : JSValue) : Except String JSValue :=
  match overrides with
  | .str s =>
    match jsonParse s with
    | none => .ok (.obj true [])
    | some v => sanitizeParsedOverrides v
  | .obj p fs => sanitizeParsedOverrides (.obj p fs)
  | .arr l => sanitizeParsedOverrides (.arr l)
  | _ => .ok (.obj true [])

def defaultScheduleJS : JSValue :=
  .obj false [("enabled", .bool false), ("start", .str "20:00"), ("end", .str "06:00")]

/-- `validateSettingsObject(settings, defaults)` (validate.js:268). -/
def validateSettingsObject (settings defaults : JSValue) : Except String JSValue :=
  if !(jsTruthy settings) || !(isTypeofObject settings) then
    .ok (.obj false (jsAssign [] defaults))
  else
    let psoRaw := getProp settings "perSiteOverrides"
    let psoArg := if jsTruthy psoRaw then psoRaw else .obj false []
    match sanitizePerSiteOverrides psoArg with
    | .error e => .error e
    | .ok safePso =>
      let blRaw := getProp settings "blacklist"
      let blArg := if jsTruthy blRaw then blRaw else .arr []
      let schRaw := getProp settings "schedule"
      let schedVal :=
        if jsTruthy schRaw && isTypeofObject schRaw then
          JSValue.obj false
            [("enabled", .bool (jsTruthy (getProp schRaw "enabled"))),
             ("start", .str (sanitizeTimeString (getProp schRaw "start") "20:00")),
             ("end", .str (sanitizeTimeString (getProp schRaw "end") "06:00"))]
        else
          let dsch := getProp defaults "schedule"
          if jsTruthy dsch then dsch else defaultScheduleJS
      .ok (.obj false
        [("color1", sanitizeHexColor (getProp settings "color1") (getProp defaults "color1")),
         ("color2", sanitizeHexColor (getProp settings "color2") (getProp defaults "color2")),
         ("color3", sanitizeHexColor (getProp settings "color3") (getProp defaults "color3")),
         ("color4", sanitizeHexColor (getProp settings "color4") (getProp defaults "color4")),
         ("textShadow", .bool (jsTruthy (getProp settings "textShadow"))),
         ("highContrast", .bool (jsTruthy (getProp settings "highContrast"))),
         ("focusOutline", .bool (jsTruthy (getProp settings "focusOutline"))),
         ("reducedMotion", .bool (jsTruthy (getProp settings "reducedMotion"))),
         ("fontSize", .num (.finite (sanitizeFontSize (getProp settings "fontSize")))),
         ("lineHeight", .num (.finite (sanitizeLineHeight (getProp settings "lineHeight")))),
         ("colorBlindMode", .str (sanitizeColorBlindMode (getProp settings "colorBlindMode"))),
         ("blacklist", .arr ((sanitizeDomainList blArg).map .str)),
         ("perSiteOverrides", safePso),
         ("debugMode", .bool (jsTruthy (getProp settings "debugMode"))),
         ("schedule", schedVal)])

/-! JSON.stringify and the checksum pair (validate.js:340-401).  The model
takes the deterministic non-SubtleCrypto branch of `calculateChecksum`
(the 32-bit rolling hash); SubtleCrypto is a platform API outside the
embedding. -/

def hexDigitChar (n : Nat) : Char :=
  if n < 10 then Char.ofNat (48 + n) else Char.ofNat (87 + n)

def jsonQuoteChar (c : Char) : List Char :=
  if c.toNat = 34 then [Char.ofNat 92, Char.ofNat 34]
  else if c.toNat = 92 then [Char.ofNat 92, Char.ofNat 92]
  else if c.toNat = 8 then [Char.ofNat 92, Char.ofNat 98]
  else if c.toNat = 12 then [Char.ofNat 92, Char.ofNat 102]
  else if c.toNat = 10 then [Char.ofNat 92, Char.ofNat 110]
  else if c.toNat = 13 then [Char.ofNat 92, Char.ofNat 114]
  else if c.toNat = 9 then [Char.ofNat 92, Char.ofNat 116]
  else if c.toNat < 32 then
    [Char.ofNat 92, Char.ofNat 117, Char.ofNat 48, Char.ofNat 48,
     hexDigitChar (c.toNat / 16), hexDigitChar (c.toNat % 16)]
  else [c]

def jsonQuote (s : String) : String :=
  String.mk (Char.ofNat 34 :: (s.data.map jsonQuoteChar).flatten ++ [Char.ofNat 34])

/-- `JSON.stringify`: `none` models the `undefined` result (only for an
`undefined` top-level value in this value model). -/
def jsonStringify : JSValue → Option String
  | .null => some "null"
  | .undefined => none
  | .bool b => some (if b then "true" else "false")
  | .num (.finite q) => some (ratJsonRepr q)
  | .num _ => some "null"
  | .str s => some (jsonQuote s)
  | .arr l =>
    some ("[" ++ String.intercalate ","
      (l.attach.map (fun p => (jsonStringify p.1).getD "null")) ++ "]")
  | .obj _ fs =>
    some ("\x7b" ++ String.intercalate ","
      (fs.attach.filterMap (fun p => (jsonStringify p.1.2).map
        (fun sv => jsonQuote p.1.1 ++ ":" ++ sv))) ++ "\x7d")
termination_by v => sizeOf v
decreasing_by
  · have := List.sizeOf_lt_of_mem p.2
    simp only [JSValue.arr.sizeOf_spec]
    omega
  · rcases p with ⟨⟨k, v⟩, hm⟩
    have := List.sizeOf_lt_of_mem hm
    simp only [JSValue.obj.sizeOf_spec, Prod.mk.sizeOf_spec] at this ⊢
    omega

/-- ToInt32 (`hash & hash`, `<< 5`). -/
def toInt32 (x : Int) : Int := ((x + 2 ^ 31) % 2 ^ 32) - 2 ^ 31

/-- One step of the fallback checksum:
`hash = ((hash << 5) - hash) + char; hash = hash & hash`. -/
def jsHashStep (h : Int) (c : Nat) : Int := toInt32 (toInt32 (h * 32) - h + c)

def jsStringHash (s : String) : Int := (utf16Units s).foldl jsHashStep 0

def natHexRepr (n : Nat) : String := String.mk (Nat.toDigits 16 n)

/-- `Number.prototype.toString(16)` for 32-bit integers. -/
def jsHashHex (h : Int) : String :=
  if h < 0 then "-" ++ natHexRepr h.natAbs else natHexRepr h.natAbs

/-- `calculateChecksum(data)` (validate.js:340), non-SubtleCrypto branch. -/
def calculateChecksum (data : JSValue) : Option String :=
  (jsonStringify data).map (fun s => jsHashHex (jsStringHash s))

/-- `signSettings(settings)` (validate.js:367). -/
def signSettings (settings : JSValue) : Option JSValue :=
  (calculateChecksum settings).map (fun c =>
    .obj false [("version", .str "1.0"), ("checksum", .str c), ("data", settings)])

/-- `verifySettings(signedSettings)` (validate.js:381). -/
def verifySettings (signedSettings : JSValue) : JSValue :=
  if !(jsTruthy signedSettings) || !(isTypeofObject signedSettings) then .null
  else if !(jsTruthy (getProp signedSettings "version")) &&
      !(jsTruthy (getProp signedSettings "checksum")) then signedSettings
  else
    let data := getProp signedSettings "data"
    if !(jsTruthy data) then .null
    else
      match calculateChecksum data with
      | some c =>
        match getProp signedSettings "checksum" with
        | .str cs => if cs = c then data else .null
        | _ => .null
      | none => .null

/-! ## config.js and content.js — the StyleController decision logic -/

/-- `CyberdarkConfig.DEFAULT_SETTINGS` from config.js (embedded in
src/content.js after the document separator, lines 1052-1071), bound by
the content script as `cyberdarkDefaults` (content.js:137/157; the inline
fallback literal there is dead code whenever config.js is loaded, as the
manifest does). -/
def cyberdarkDefaults : JSValue := .obj false
  [("color1", .str "#00ffff"), ("color2", .str "#00ff00"),
   ("color3", .str "#ff00ff"), ("color4", .str "#ff0000"),
   ("textShadow", .bool true), ("highContrast", .bool true),
   ("focusOutline", .bool true), ("reducedMotion", .bool false),
   ("fontSize", .num (.finite 16)), ("lineHeight", .num (.finite 1.5)),
   ("colorBlindMode", .str "none"), ("blacklist", .arr []),
   ("perSiteOverrides", .obj false []), ("enabled", .bool true),
   ("schedule", .obj false
     [("enabled", .bool false), ("start", .str "20:00"), ("end", .str "06:00")]),
   ("resourceMonitorEnabled", .bool true), ("debugMode", .bool false)]

/-- The popup's `defaultSettings` literal (popup.js / src/unnamed/part_000,
lines 21-38): the canonical, fully-populated defaults record. -/
def popupDefaultSettings : JSValue := .obj false
  [("color1", .str "#00ffff"), ("color2", .str "#00ff00"),
   ("color3", .str "#ff00ff"), ("color4", .str "#ff0000"),
   ("textShadow", .bool true), ("highContrast", .bool true),
   ("focusOutline", .bool true), ("reducedMotion", .bool false),
   ("fontSize", .num (.finite 16)), ("lineHeight", .num (.finite 1.5)),
   ("colorBlindMode", .str "none"), ("blacklist", .arr []),
   ("perSiteOverrides", .obj false []),
   ("schedule", .obj false
     [("enabled", .bool false), ("start", .str "20:00"), ("end", .str "06:00")]),
   ("resourceMonitorEnabled", .bool true), ("debugMode", .bool false)]

/-- `hostMatches(hostname, pattern)` from config.js (embedded at
content.js:1141-1146): falsy arguments never match; both sides are
normalized by `String(...).toLowerCase()`; then exact equality or
hostname ending in `"." + pattern`. -/
def hostMatches (hostname pattern : JSValue) : Bool :=
  if !(jsTruthy hostname) || !(jsTruthy pattern) then false
  else
    let h := (jsToStringL hostname).map toLowerChar
    let p := (jsToStringL pattern).map toLowerChar
    h == p || List.isSuffixOf (Char.ofNat 46 :: p) h

/-- The fixed `PROBLEMATIC_SITES` list of config.js (content.js:1076-1082),
always excluded regardless of user configuration. -/
def PROBLEMATIC_SITES : List String :=
  ["docs.google.com", "sheets.google.com", "slides.google.com", "figma.com",
   "chrome.google.com"]

/-- `CyberdarkConfig.isBlacklisted(domain, blacklist)` from config.js
(embedded at content.js:1149-1157), called by both decision paths at
content.js:550 and content.js:642: a user-blacklist match (only when the
blacklist is an array) or a match against the fixed `PROBLEMATIC_SITES`
list.  The `try/catch` has nothing to catch in this total model. -/
def isBlacklisted (domain blacklist : JSValue) : Bool :=
  (match blacklist with
   | .arr l => l.any (fun d => hostMatches domain d)
   | _ => false) ||
  PROBLEMATIC_SITES.any (fun d => hostMatches domain (.str d))

/-- `result.cyberdarkEnabled === true`. -/
def jsStrictTrue : JSValue → Bool
  | .bool true => true
  | _ => false

/-- The settings merge shared verbatim by the load path and the
change-notification path (content.js:546-549 and 638-641):
`Object.assign({}, cyberdarkDefaults, stored || {})`, then overlay
`(settings.perSiteOverrides && settings.perSiteOverrides[domain]) || {}`. -/
def finalSettingsOf (result : JSValue) (domain : String) : JSValue :=
  let stored := getProp result "cyberdarkSettings"
  let settings := JSValue.obj false
    (jsAssign (jsAssign [] cyberdarkDefaults)
      (if jsTruthy stored then stored else .obj false []))
  let pso := getProp settings "perSiteOverrides"
  let t := if jsTruthy pso then getProp pso domain else pso
  let overrides := if jsTruthy t then t else .obj false []
  JSValue.obj false (jsAssign (jsAssign [] settings) overrides)

/-- Destructured element of the `.split(':').map(Number)` result; a
missing position is `undefined`, whose subsequent arithmetic is NaN. -/
def getNumAt (l : List JSNum) (i : Nat) : JSNum := (l.get? i).getD .nan

/-- The load path's `shouldApply` computation including the schedule gate
(content.js:544-574).  `nowMinutes` is `getHours() * 60 + getMinutes()`.
The `TypeError` of calling `.split` on a non-string schedule bound is the
only failure. -/
def loadShouldApply (result : JSValue) (domain : String) (nowMinutes : Nat) :
    Except String Bool :=
  let enabled := jsStrictTrue (getProp result "cyberdarkEnabled")
  let finalSettings := finalSettingsOf result domain
  let blacklisted := isBlacklisted (.str domain) (getProp finalSettings "blacklist")
  let shouldApply := enabled && !blacklisted
  let sch := getProp finalSettings "schedule"
  if shouldApply && jsTruthy sch && jsTruthy (getProp sch "enabled") then
    match getProp sch "start", getProp sch "end" with
    | .str s, .str e =>
      let sp := (splitOnChar (Char.ofNat 58) s.data).map stringToNumberL
      let ep := (splitOnChar (Char.ofNat 58) e.data).map stringToNumberL
      let startTime := JSNum.jsAdd (JSNum.jsMul (getNumAt sp 0) (.finite 60)) (getNumAt sp 1)
      let endTime := JSNum.jsAdd (JSNum.jsMul (getNumAt ep 0) (.finite 60)) (getNumAt ep 1)
      let cur : JSNum := .finite (nowMinutes : ℚ)
      if JSNum.jsLt startTime endTime then
        .ok (JSNum.jsLe startTime cur && JSNum.jsLt cur endTime)
      else
        .ok (JSNum.jsLe startTime cur || JSNum.jsLt cur endTime)
    | _, _ => .error "TypeError"
  else .ok shouldApply

/-- The storage `onChanged` listener's decision (content.js:637-643):
styles are (re)applied exactly when `enabled && !blacklisted`, with no
schedule consultation. -/
def changeShouldApply (result : JSValue) (domain : String) : Bool :=
  let enabled := jsStrictTrue (getProp result "cyberdarkEnabled")
  let finalSettings := finalSettingsOf result domain
  let blacklisted := isBlacklisted (.str domain) (getProp finalSettings "blacklist")
  enabled && !blacklisted

/-- Spec-side schedule window (§4.2 step 6), over minutes-since-midnight:
a normal window `start < end` applies on `start ≤ now < end`; an overnight
window applies on `now ≥ start ∨ now < end`. -/
def scheduleWindowSpec (st en now : Nat) : Bool :=
  if st < en then decide (st ≤ now) && decide (now < en)
  else decide (st ≤ now) || decide (now < en)

/-! DOM model for `applyCyberdarkStyles` (content.js:179-366).  An element
is its attribute list; stylesheet text is an opaque payload (spec §1 keeps
CSS content out of scope). -/

abbrev DomElem := List (String × String)

def attrGet : DomElem → String → Option String
  | [], _ => none
  | kv :: rest, k => if kv.1 = k then some kv.2 else attrGet rest k

/-- Matches the selector `style[data-cyberdark="main"]`. -/
def isMainStyle (e : DomElem) : Bool := attrGet e "data-cyberdark" == some "main"

/-- The freshly created main style element (content.js:210-213). -/
def mainStyleElem : DomElem :=
  [("data-cyberdark", "main"),
   ("aria-label", "Cyberdark enforced dark mode and accessibility styles"),
   ("role", "presentation")]

/-- `querySelector` + `.remove()`: drop the first matching element. -/
def removeFirstMain : List DomElem → List DomElem
  | [] => []
  | e :: rest => if isMainStyle e then rest else e :: removeFirstMain rest

/-- `applyCyberdarkStyles(settings)` as a transformation of the target's
style elements: remove the first existing main stylesheet (content.js:
208-209), then append the fresh one only when no main stylesheet remains
(the check-then-insert of content.js:359-362).  `settings` shapes only the
opaque CSS text. -/
def applyCyberdarkStylesDom (settings : JSValue) (doc : List DomElem) : List DomElem :=
  let _ := settings
  let d1 := removeFirstMain doc
  if d1.any isMainStyle then d1 else d1 ++ [mainStyleElem]

def countMainStyles (doc : List DomElem) : Nat := doc.countP (fun e => isMainStyle e)

/-! ## Specification-side predicates used by the claims -/

def isNullVal : JSValue → Bool
  | .null => true
  | _ => false

def isEmptyStrVal : JSValue → Bool
  | .str s => s.data.isEmpty
  | _ => false

/-- Nearest-point clamp onto `[mn, mx]` (assuming `mn ≤ mx`). -/
def clampSpec (mn mx q : ℚ) : ℚ := if q < mn then mn else if mx < q then mx else q

/-- The amended C4 contract: the default for `null`, `undefined`, the empty
string, and any value whose numeric coercion is non-finite; otherwise the
coerced number clamped into `[mn, mx]`. -/
def specNumericSanitize (value : JSValue) (mn mx df : ℚ) : ℚ :=
  if isNullVal value || isUndef value || isEmptyStrVal value then df
  else
    match jsToNumber value with
    | .finite q => clampSpec mn mx q
    | _ => df

def fieldAbsentOrFalsy (v : JSValue) (k : String) : Bool := !(jsTruthy (getProp v k))

/-- The amended C5 contract, written from the corrected spec sentence:
non-object input fails with the null signal; an object whose `version` and
`checksum` are both absent-or-falsy is a legacy payload passed through
unchanged; otherwise an absent-or-falsy `data` fails, and the wrapped
`data` is returned exactly when the stored checksum is a string equal to
the recomputed digest of `data`, else the null signal. -/
def verifySpecAmended (v : JSValue) : JSValue :=
  match v with
  | .obj _ _ | .arr _ =>
    if fieldAbsentOrFalsy v "version" && fieldAbsentOrFalsy v "checksum" then v
    else if fieldAbsentOrFalsy v "data" then .null
    else
      match getProp v "checksum", calculateChecksum (getProp v "data") with
      | .str cs, some c => if cs = c then getProp v "data" else .null
      | _, _ => .null
  | _ => .null

/-- A clean override entry: a non-forbidden key mapped to a null-prototype
object. -/
def cleanEntry (kv : String × JSValue) : Bool :=
  !(forbiddenKey kv.1) &&
    (match kv.2 with
     | .obj true _ => true
     | _ => false)

/-- The C7 result shape: a null-prototype map whose every entry is clean. -/
def cleanResult : JSValue → Bool
  | .obj true fs => fs.all cleanEntry
  | _ => false

def hasKeyL (l : List (String × JSValue)) (k : String) : Bool :=
  l.any (fun kv => kv.1 == k)

/-! ## Concrete test fixtures referenced by counterexamples and witnesses -/

/-- A record holding one valid per-site override (C1's failing input). -/
def recordWithOverride : JSValue :=
  .obj false [("perSiteOverrides", .obj false [("example.com", .obj false [])])]

/-- Stored state for the schedule claims: enabled, empty blacklist, an
enabled overnight 20:00–06:00 schedule. -/
def storedOvernight : JSValue := .obj false
  [("cyberdarkEnabled", .bool true),
   ("cyberdarkSettings", .obj false
     [("schedule", .obj false
       [("enabled", .bool true), ("start", .str "20:00"), ("end", .str "06:00")])])]

/-- Stored state with a normal 09:00–17:00 schedule. -/
def storedDaytime : JSValue := .obj false
  [("cyberdarkEnabled", .bool true),
   ("cyberdarkSettings", .obj false
     [("schedule", .obj false
       [("enabled", .bool true), ("start", .str "09:00"), ("end", .str "17:00")])])]

def overnightSchedule : JSValue := .obj false
  [("enabled", .bool true), ("start", .str "20:00"), ("end", .str "06:00")]

def daytimeSchedule : JSValue := .obj false
  [("enabled", .bool true), ("start", .str "09:00"), ("end", .str "17:00")]

/-- An envelope whose `version` and `checksum` fields are present but falsy
(C5's counterexample input). -/
def falsyEnvelopeFields : List (String × JSValue) :=
  [("version", .str ""), ("checksum", .str ""), ("data", .str "x")]

def falsyEnvelope : JSValue := .obj false falsyEnvelopeFields

/-- A correctly signed envelope for the data `"Aa"` whose data was then
mutated to the hash-colliding `"BB"`. -/
def tamperedEnvelope : JSValue := .obj false
  [("version", .str "1.0"),
   ("checksum", .str ((calculateChecksum (.str "Aa")).getD "")),
   ("data", .str "BB")]

/-- A document that already carries four main stylesheet elements. -/
def docFourMains : List DomElem := List.replicate 4 mainStyleElem

/-- A document with two main stylesheet elements and an unrelated one. -/
def docTwoMains : List DomElem := [mainStyleElem, [("id", "x")], mainStyleElem]

/-- Serialized override input carrying a `__proto__` key (C7's witness). -/
def protoJsonInput : String :=
  "\x7b\"__proto__\": \x7b\"a\": 1\x7d, \"example.com\": \x7b\"fontSize\": 30\x7d\x7d"

def protoJsonOutput : JSValue :=
  .obj true [("example.com", .obj true [("fontSize", .num (.finite 24))])]

/-- 150 distinct, already-canonical valid domains with object values
(C8's witness). -/
def fields150 : List (String × JSValue) :=
  (List.range 150).map (fun i => ("d" ++ Nat.repr i ++ ".example.com", JSValue.obj false []))

/-! ## Helper lemmas -/

theorem assocSet_all (p : String × JSValue → Bool) (k : String) (v : JSValue) :
    ∀ l : List (String × JSValue), l.all p = true → p (k, v) = true →
      (assocSet l k v).all p = true := by
  intro l
  induction l with
  | nil => intro _ hp; simpa [assocSet] using hp
  | cons a rest ih =>
    intro hl hp
    rw [List.all_cons, Bool.and_eq_true] at hl
    unfold assocSet
    split_ifs with hk
    · rw [List.all_cons, Bool.and_eq_true]; exact ⟨hp, hl.2⟩
    · rw [List.all_cons, Bool.and_eq_true]; exact ⟨hl.1, ih hl.2 hp⟩

theorem assocSet_append (k : String) (v : JSValue) :
    ∀ l : List (String × JSValue), (∀ a ∈ l, a.1 ≠ k) →
      assocSet l k v = l ++ [(k, v)] := by
  intro l
  induction l with
  | nil => intro _; rfl
  | cons a rest ih =>
    intro h
    unfold assocSet
    rw [if_neg (h a (List.mem_cons_self a rest))]
    rw [ih (fun b hb => h b (List.mem_cons_of_mem a hb))]
    rfl

theorem sanitizeDomainStr_regex (s d : String) (h : sanitizeDomainStr s = some d) :
    domainRegexMatch d.data = true := by
  simp only [sanitizeDomainStr] at h
  split_ifs at h with h1 h2 h3
  · injection h with h
    subst h
    exact h3

theorem not_forbidden_of_domain (s d : String) (h : sanitizeDomainStr s = some d) :
    forbiddenKey d = false := by
  have hr := sanitizeDomainStr_regex s d h
  unfold forbiddenKey
  simp only [Bool.or_eq_false_iff, beq_eq_false_iff_ne, ne_eq]
  refine ⟨⟨?_, ?_⟩, ?_⟩ <;> rintro rfl <;> exact absurd hr (by decide)

theorem hasOwnProperty_not_domain : sanitizeDomainStr "hasOwnProperty" = none := by decide

/-- The loop of `sanitizePerSiteOverrides` only ever emits clean entries. -/
theorem overridesLoop_clean (parsed : JSValue) :
    ∀ (entries acc out : List (String × JSValue)),
      acc.all cleanEntry = true →
      overridesLoop parsed entries acc = .ok out →
      out.all cleanEntry = true := by
  intro entries
  induction entries with
  | nil =>
    intro acc out hacc h
    unfold overridesLoop at h
    injection h with h
    subst h
    exact hacc
  | cons kv rest ih =>
    intro acc out hacc h
    unfold overridesLoop at h
    cases hb : hasOwnBroken parsed with
    | true => simp [hb] at h
    | false =>
      simp only [hb, Bool.false_eq_true, if_false] at h
      cases hfk : forbiddenKey kv.1 with
      | true =>
        simp only [hfk, if_true] at h
        exact ih acc out hacc h
      | false =>
        simp only [hfk, Bool.false_eq_true, if_false] at h
        cases hsd : sanitizeDomainStr kv.1 with
        | none => rw [hsd] at h; exact ih acc out hacc h
        | some d =>
          rw [hsd] at h
          cases ho : isObjectNonNull kv.2 with
          | true =>
            simp only [ho, if_true] at h
            refine ih _ out (assocSet_all _ _ _ acc hacc ?_) h
            simp only [cleanEntry, Bool.and_eq_true, Bool.not_eq_true']
            exact ⟨not_forbidden_of_domain kv.1 d hsd, trivial⟩
          | false =>
            simp only [ho, Bool.false_eq_true, if_false] at h
            exact ih acc out hacc h

theorem all_take (p : String × JSValue → Bool) (l : List (String × JSValue)) (n : Nat)
    (h : l.all p = true) : (l.take n).all p = true := by
  rw [List.all_eq_true] at h ⊢
  exact fun x hx => h x (List.take_subset n l hx)

/-- On an entry list of canonical valid domains with object values and
pairwise-distinct keys, the loop is a plain map over the entries. -/
theorem overridesLoop_map (parsed : JSValue) (hb : hasOwnBroken parsed = false) :
    ∀ (entries acc : List (String × JSValue)),
      (∀ kv ∈ entries, sanitizeDomainStr kv.1 = some kv.1 ∧ isObjectNonNull kv.2 = true) →
      (∀ kv ∈ entries, ∀ a ∈ acc, a.1 ≠ kv.1) →
      (entries.map Prod.fst).Nodup →
      overridesLoop parsed entries acc =
        .ok (acc ++ entries.map (fun kv => (kv.1, JSValue.obj true (entrySanitize kv.2)))) := by
  intro entries
  induction entries with
  | nil => intro acc _ _ _; simp [overridesLoop]
  | cons kv rest ih =>
    intro acc hk hdisj hnd
    have hk1 := (hk kv (List.mem_cons_self kv rest)).1
    have hk2 := (hk kv (List.mem_cons_self kv rest)).2
    have hfk : forbiddenKey kv.1 = false := not_forbidden_of_domain kv.1 kv.1 hk1
    unfold overridesLoop
    simp only [hb, Bool.false_eq_true, if_false, hfk, hk1, hk2, if_true]
    rw [assocSet_append kv.1 _ acc (fun a ha => hdisj kv (List.mem_cons_self kv rest) a ha)]
    rw [List.map_cons, List.nodup_cons] at hnd
    rw [ih (acc ++ [(kv.1, JSValue.obj true (entrySanitize kv.2))])
      (fun b hb2 => hk b (List.mem_cons_of_mem kv hb2))
      ?_ hnd.2]
    · simp
    · intro b hb2 a ha
      rcases List.mem_append.1 ha with h | h
      · exact hdisj b (List.mem_cons_of_mem kv hb2) a h
      · rcases List.mem_singleton.1 h with rfl
        intro heq
        exact hnd.1 (heq ▸ List.mem_map_of_mem Prod.fst hb2)

theorem sanitizeParsed_clean (parsed m : JSValue)
    (h : sanitizeParsedOverrides parsed = .ok m) : cleanResult m = true := by
  unfold sanitizeParsedOverrides at h
  cases hl : overridesLoop parsed (ownEnumerable parsed) [] with
  | error e => rw [hl] at h; exact Except.noConfusion h
  | ok safe =>
    rw [hl] at h
    injection h with h
    subst h
    have hall := overridesLoop_clean parsed _ [] safe rfl hl
    unfold cleanResult
    split_ifs with hn
    · exact all_take _ _ _ hall
    · exact hall

theorem countMain_removeFirst (doc : List DomElem) :
    countMainStyles (removeFirstMain doc) = countMainStyles doc - 1 := by
  induction doc with
  | nil => rfl
  | cons e rest ih =>
    unfold removeFirstMain
    cases hm : isMainStyle e with
    | true =>
      simp only [if_true, countMainStyles, List.countP_cons, hm]
      omega
    | false =>
      simp only [Bool.false_eq_true, if_false, countMainStyles, List.countP_cons, hm]
      simpa [countMainStyles] using ih

theorem countMain_apply (s : JSValue) (doc : List DomElem) :
    countMainStyles (applyCyberdarkStylesDom s doc) =
      if countMainStyles doc ≤ 1 then 1 else countMainStyles doc - 1 := by
  unfold applyCyberdarkStylesDom
  have hrem := countMain_removeFirst doc
  cases hany : (removeFirstMain doc).any isMainStyle with
  | true =>
    rw [if_pos hany]
    obtain ⟨a, ha, hpa⟩ := List.any_eq_true.1 hany
    have hpos : 0 < countMainStyles (removeFirstMain doc) :=
      List.countP_pos_iff.2 ⟨a, ha, by simpa using hpa⟩
    rw [hrem] at hpos
    rw [hrem]
    rw [if_neg (by omega)]
  | false =>
    rw [if_neg (by simp [hany])]
    have hzero : countMainStyles (removeFirstMain doc) = 0 := by
      simp only [countMainStyles, List.countP_eq_zero]
      intro a ha hc
      exact absurd (List.any_eq_true.2 ⟨a, ha, by simpa using hc⟩) (by simp [hany])
    have hle : countMainStyles doc ≤ 1 := by rw [hrem] at hzero; omega
    rw [if_pos hle]
    simp only [countMainStyles, List.countP_append] at hzero ⊢
    rw [hzero]
    decide

theorem hasKeyL_append (l1 l2 : List (String × JSValue)) (k : String) :
    hasKeyL (l1 ++ l2) k = (hasKeyL l1 k || hasKeyL l2 k) := by
  simp [hasKeyL, List.any_append]

theorem hasKeyL_condEntry (c : Bool) (k1 k : String) (v : JSValue) :
    hasKeyL (condEntry c k1 v) k = (c && (k1 == k)) := by
  cases c <;> simp [condEntry, hasKeyL]

theorem char_eq_of_toNat_eq (a b : Char) (h : a.toNat = b.toNat) : a = b := by
  cases a with | mk av ah =>
  cases b with | mk bv bh =>
  simp only [Char.toNat] at h
  congr 1
  exact UInt32.ext h

theorem char_ne_of_toNat_ne (a b : Char) (h : a.toNat ≠ b.toNat) : a ≠ b :=
  fun he => h (he ▸ rfl)

theorem digit_not_ws (c : Char) (h : isDigitChar c = true) : isJsWs c = false := by
  simp only [isDigitChar, Bool.and_eq_true, decide_eq_true_eq] at h
  simp only [isJsWs, jsWsCodes, List.contains_eq_any_beq, List.any_eq_false]
  intro x hx
  simp only [List.mem_cons, List.not_mem_nil, or_false] at hx
  simp only [beq_iff_eq]
  omega

theorem jsTrim_pair (a b : Char) (ha : isJsWs a = false) (hb : isJsWs b = false) :
    jsTrim [a, b] = [a, b] := by
  simp [jsTrim, List.dropWhile, ha, hb]

/-- `Number` applied to a two-digit string yields its decimal value. -/
theorem stringToNumberL_two_digits (a b : Char)
    (ha : isDigitChar a = true) (hb : isDigitChar b = true) :
    stringToNumberL [a, b] = .finite (((10 * (a.toNat - 48) + (b.toNat - 48)) : ℕ) : ℚ) := by
  have ha' := ha
  have hb' := hb
  simp only [isDigitChar, Bool.and_eq_true, decide_eq_true_eq] at ha' hb'
  unfold stringToNumberL
  rw [jsTrim_pair a b (digit_not_ws a ha) (digit_not_ws b hb)]
  dsimp only
  rw [if_neg (by omega), if_neg (by omega)]
  unfold parseUnsigned
  rw [if_neg ?hinf]
  case hinf =>
    intro heq
    have h2 : List.length [a, b] = 2 := rfl
    have h8 : List.length "Infinity".data = 8 := rfl
    rw [heq] at h2
    omega
  dsimp only
  rw [if_neg (by omega), if_neg (by omega), if_neg (by omega)]
  unfold parseDecimal
  have htake : List.takeWhile isDigitChar [a, b] = [a, b] := by
    simp [List.takeWhile, ha, hb]
  have hdrop : List.dropWhile isDigitChar [a, b] = [] := by
    simp [List.dropWhile, ha, hb]
  rw [htake, hdrop]
  dsimp only
  rw [if_neg (by simp)]
  have hd2 : digitsToNat [a, b] = 10 * (a.toNat - 48) + (b.toNat - 48) := by
    simp [digitsToNat, List.foldl]
  rw [hd2]
  simp [digitsToNat]

theorem splitOnChar_hhmm (h1 h2 m1 m2 c : Char) (hc : c.toNat = 58)
    (hd1 : isDigitChar h1 = true) (hd2 : isDigitChar h2 = true)
    (hd3 : isDigitChar m1 = true) (hd4 : isDigitChar m2 = true) :
    splitOnChar (Char.ofNat 58) [h1, h2, c, m1, m2] = [[h1, h2], [m1, m2]] := by
  have hcEq : c = Char.ofNat 58 := char_eq_of_toNat_eq c (Char.ofNat 58) (by rw [hc]; rfl)
  have hne : ∀ x : Char, isDigitChar x = true → x ≠ Char.ofNat 58 := by
    intro x hx
    refine char_ne_of_toNat_ne x (Char.ofNat 58) ?_
    simp only [isDigitChar, Bool.and_eq_true, decide_eq_true_eq] at hx
    have : (Char.ofNat 58).toNat = 58 := rfl
    omega
  simp only [splitOnChar, if_neg (hne h1 hd1), if_neg (hne h2 hd2), if_pos hcEq,
    if_neg (hne m1 hd3), if_neg (hne m2 hd4)]

/-- Bridge for the schedule gate: on a valid `HH:MM` string, the code's
`split(':').map(Number)` produces the two components of `timeMinutes`. -/
theorem time_parse (s : String) (h : validTimeString s = true) :
    ∃ H M : ℕ,
      (splitOnChar (Char.ofNat 58) s.data).map stringToNumberL =
        [.finite (H : ℚ), .finite (M : ℚ)] ∧
      timeMinutes s = 60 * H + M ∧ H < 24 ∧ M < 60 := by
  unfold validTimeString at h
  unfold timeMinutes
  cases hd : s.data with
  | nil => rw [hd] at h; exact absurd h (by simp)
  | cons c1 t1 =>
  cases t1 with
  | nil => rw [hd] at h; exact absurd h (by simp)
  | cons c2 t2 =>
  cases t2 with
  | nil => rw [hd] at h; exact absurd h (by simp)
  | cons c3 t3 =>
  cases t3 with
  | nil => rw [hd] at h; exact absurd h (by simp)
  | cons c4 t4 =>
  cases t4 with
  | nil => rw [hd] at h; exact absurd h (by simp)
  | cons c5 t5 =>
  cases t5 with
  | cons c6 t6 => rw [hd] at h; exact absurd h (by simp)
  | nil =>
    rw [hd] at h
    simp only [Bool.and_eq_true, Bool.or_eq_true, decide_eq_true_eq] at h
    obtain ⟨⟨⟨hc3, hh⟩, hm1⟩, hm2⟩ := h
    have hh' : (48 ≤ c1.toNat ∧ c1.toNat ≤ 49 ∧ 48 ≤ c2.toNat ∧ c2.toNat ≤ 57) ∨
        (c1.toNat = 50 ∧ 48 ≤ c2.toNat ∧ c2.toNat ≤ 51) := by
      rcases hh with ⟨h1, h2⟩ | ⟨⟨h1, h2⟩, h3⟩
      · simp only [isDigitChar, Bool.and_eq_true, decide_eq_true_eq] at h2
        rcases h1 with h1 | h1 <;> exact Or.inl (by omega)
      · exact Or.inr (by omega)
    have hd1 : isDigitChar c1 = true := by
      simp only [isDigitChar, Bool.and_eq_true, decide_eq_true_eq]
      omega
    have hd2 : isDigitChar c2 = true := by
      simp only [isDigitChar, Bool.and_eq_true, decide_eq_true_eq]
      omega
    have hd4 : isDigitChar c4 = true := by
      simp only [isDigitChar, Bool.and_eq_true, decide_eq_true_eq]
      omega
    refine ⟨10 * (c1.toNat - 48) + (c2.toNat - 48),
            10 * (c4.toNat - 48) + (c5.toNat - 48), ?_, ?_, ?_, ?_⟩
    · rw [splitOnChar_hhmm c1 c2 c4 c5 c3 hc3 hd1 hd2 hd4 hm2]
      rw [List.map_cons, List.map_cons, List.map_nil]
      rw [stringToNumberL_two_digits c1 c2 hd1 hd2,
          stringToNumberL_two_digits c4 c5 hd4 hm2]
    · dsimp only
      omega
    · omega
    · simp only [isDigitChar, Bool.and_eq_true, decide_eq_true_eq] at hm2
      omega

theorem numClamp_finite_eq (mn mx q : ℚ) (h : mn ≤ mx) :
    max mn (min mx q) = clampSpec mn mx q := by
  unfold clampSpec
  split_ifs with h1 h2
  · rw [min_eq_right (by linarith), max_eq_left (by linarith)]
  · rw [min_eq_left (by linarith), max_eq_right h]
  · rw [min_eq_right (by linarith), max_eq_right (by linarith)]

theorem numClamp_eq_spec (n : JSNum) (mn mx df : ℚ) (h : mn ≤ mx) :
    numClamp n mn mx df =
      (match n with
       | .finite q => clampSpec mn mx q
       | _ => df) := by
  cases n with
  | finite q => exact numClamp_finite_eq mn mx q h
  | nan => rfl
  | posInf => rfl
  | negInf => rfl

/-! ## Claims -/

/-- C1 (code_bug): the spec asserts `validateSettingsObject(r, d)` is
idempotent for every record and defaults.  The code refutes this on an
ordinary record carrying one per-site override: the first validation
succeeds and stores the override map as a null-prototype object, and the
second validation then throws a `TypeError` inside
`sanitizePerSiteOverrides`, because `parsed.hasOwnProperty(key)` is not
callable on a null-prototype receiver (validate.js:215).  So
`validate(validate(r), d)` is not even defined where `validate(r, d)` is;
the spec states the intent, the `hasOwnProperty` call is the slip. -/
theorem c1_second_validation_throws :
    (validateSettingsObject recordWithOverride popupDefaultSettings).isOk = true ∧
    (validateSettingsObject recordWithOverride popupDefaultSettings).bind
      (fun v => validateSettingsObject v popupDefaultSettings) =
      .error "TypeError" := ⟨rfl, rfl⟩

/-- C2 (code_bug): the spec's sanitizer contract says every function
returns normally on any input.  `sanitizePerSiteOverrides` throws a
`TypeError` on (a) a plain object whose own `hasOwnProperty` property
shadows the builtin with a non-function, and (b) any non-empty
null-prototype map — including the function's own previous output. -/
theorem c2_sanitizer_throws :
    sanitizePerSiteOverrides
      (.obj false [("hasOwnProperty", .num (.finite 1)), ("example.com", .obj false [])]) =
      .error "TypeError" ∧
    sanitizePerSiteOverrides (.obj true [("example.com", .obj false [])]) =
      .error "TypeError" := ⟨rfl, rfl⟩

/-- C3 (code_bug): the spec requires the same effective-settings resolution
— including the schedule gate — on the change-notification path as on the
load path.  With an enabled overnight 20:00–06:00 schedule at 12:00, the
load path computes `shouldApply = false`, while the `onChanged` listener
(content.js:643) checks only `enabled && !blacklisted` and applies the
styles. -/
theorem c3_change_listener_skips_schedule :
    loadShouldApply storedOvernight "example.com" 720 = .ok false ∧
    changeShouldApply storedOvernight "example.com" = true :=
  ⟨by with_unfolding_all rfl, by with_unfolding_all rfl⟩

/-- C4 counterexample: the claim says every input that is not a number and
not a numeric string yields the default.  The boolean `true` is neither,
yet `sanitizeNumericRange(true, 12, 24, 16)` coerces it to `1` and clamps
to `12`, not the default `16`. -/
theorem c4_boolean_not_defaulted :
    sanitizeNumericRange (.bool true) 12 24 16 = 12 ∧ (12 : ℚ) ≠ 16 := by
  refine ⟨?_, by norm_num⟩
  show numClamp (.finite 1) 12 24 16 = 12
  unfold numClamp
  norm_num

/-- C4 amended: `sanitizeNumericRange` returns the default exactly for
`null`, `undefined`, the empty string, and any value whose `Number`
coercion is non-finite; every other input — booleans and array-likes
included — is coerced and clamped into `[mn, mx]`. -/
theorem c4_amended_characterization (v : JSValue) (mn mx df : ℚ) (h : mn ≤ mx) :
    sanitizeNumericRange v mn mx df = specNumericSanitize v mn mx df := by
  cases v with
  | null => rfl
  | undefined => rfl
  | str s =>
    unfold sanitizeNumericRange specNumericSanitize
    cases he : s.data.isEmpty with
    | true => simp [isNullVal, isUndef, isEmptyStrVal, he]
    | false =>
      simp only [isNullVal, isUndef, isEmptyStrVal, he, Bool.or_self, Bool.or_false,
        Bool.false_eq_true, if_false]
      exact numClamp_eq_spec _ _ _ _ h
  | bool b =>
    unfold sanitizeNumericRange specNumericSanitize
    simp only [isNullVal, isUndef, isEmptyStrVal, Bool.or_self, Bool.false_eq_true, if_false]
    exact numClamp_eq_spec _ _ _ _ h
  | num n =>
    unfold sanitizeNumericRange specNumericSanitize
    simp only [isNullVal, isUndef, isEmptyStrVal, Bool.or_self, Bool.false_eq_true, if_false]
    exact numClamp_eq_spec _ _ _ _ h
  | arr l =>
    unfold sanitizeNumericRange specNumericSanitize
    simp only [isNullVal, isUndef, isEmptyStrVal, Bool.or_self, Bool.false_eq_true, if_false]
    exact numClamp_eq_spec _ _ _ _ h
  | obj p fs =>
    unfold sanitizeNumericRange specNumericSanitize
    simp only [isNullVal, isUndef, isEmptyStrVal, Bool.or_self, Bool.false_eq_true, if_false]
    exact numClamp_eq_spec _ _ _ _ h

/-- C4 witness: `"30"` is numeric and is clamped to the upper bound 24. -/
theorem c4_amended_witness :
    (12 : ℚ) ≤ 24 ∧
    sanitizeNumericRange (.str "30") 12 24 16 = specNumericSanitize (.str "30") 12 24 16 ∧
    specNumericSanitize (.str "30") 12 24 16 = 24 :=
  ⟨by norm_num, c4_amended_characterization (.str "30") 12 24 16 (by norm_num),
   by with_unfolding_all decide⟩

/-- C9 counterexample: the claim quantifies over every document state, but
from a document already containing four main stylesheet elements two
invocations of `applyCyberdarkStyles` leave two, not one: each invocation
removes only the first match and, seeing a survivor, skips the insert. -/
theorem c9_four_mains_counterexample :
    countMainStyles (applyCyberdarkStylesDom (.obj false [])
      (applyCyberdarkStylesDom (.obj false []) docFourMains)) = 2 ∧ 2 ≠ 1 :=
  ⟨rfl, by omega⟩

/-- C9 amended: for every document state with at most three main
stylesheet elements — which covers every state the controller itself can
produce, since it never inserts while one is present — two consecutive
invocations leave exactly one main stylesheet element. -/
theorem c9_amended_two_applies (s : JSValue) (doc : List DomElem)
    (h : countMainStyles doc ≤ 3) :
    countMainStyles (applyCyberdarkStylesDom s (applyCyberdarkStylesDom s doc)) = 1 := by
  have h2 := countMain_apply s (applyCyberdarkStylesDom s doc)
  rw [countMain_apply s doc] at h2
  rw [h2]
  split_ifs <;> omega

/-- C9 witness: a document with two main elements and one unrelated
element converges to exactly one main element after two invocations. -/
theorem c9_amended_witness :
    countMainStyles docTwoMains ≤ 3 ∧
    countMainStyles (applyCyberdarkStylesDom (.obj false [])
      (applyCyberdarkStylesDom (.obj false []) docTwoMains)) = 1 :=
  ⟨by decide, c9_amended_two_applies (.obj false []) docTwoMains (by decide)⟩

/-- C10 (implicit): within a per-site override, the color, fontSize,
lineHeight and colorBlindMode sub-fields are kept exactly when the input
value is truthy (so `fontSize: 0`, `colorBlindMode: false` or an empty
color string are silently dropped, not defaulted), while the four boolean
flags are kept exactly when the input value is not `undefined`. -/
theorem c10_override_field_gating (ds : JSValue) :
    hasKeyL (entrySanitize ds) "color1" = jsTruthy (getProp ds "color1") ∧
    hasKeyL (entrySanitize ds) "color2" = jsTruthy (getProp ds "color2") ∧
    hasKeyL (entrySanitize ds) "color3" = jsTruthy (getProp ds "color3") ∧
    hasKeyL (entrySanitize ds) "color4" = jsTruthy (getProp ds "color4") ∧
    hasKeyL (entrySanitize ds) "fontSize" = jsTruthy (getProp ds "fontSize") ∧
    hasKeyL (entrySanitize ds) "lineHeight" = jsTruthy (getProp ds "lineHeight") ∧
    hasKeyL (entrySanitize ds) "colorBlindMode" = jsTruthy (getProp ds "colorBlindMode") ∧
    hasKeyL (entrySanitize ds) "textShadow" = !(isUndef (getProp ds "textShadow")) ∧
    hasKeyL (entrySanitize ds) "highContrast" = !(isUndef (getProp ds "highContrast")) ∧
    hasKeyL (entrySanitize ds) "focusOutline" = !(isUndef (getProp ds "focusOutline")) ∧
    hasKeyL (entrySanitize ds) "reducedMotion" = !(isUndef (getProp ds "reducedMotion")) := by
  refine ⟨?_, ?_, ?_, ?_, ?_, ?_, ?_, ?_, ?_, ?_, ?_⟩ <;>
    simp [entrySanitize, hasKeyL_append, hasKeyL_condEntry]

/-- C5 counterexample: per the claim, an object that does not lack the
`version`/`checksum` fields must verify the checksum, so an envelope with
falsy `version`, falsy `checksum` and data `"x"` should fail (its digest
is not the empty string).  The code instead treats the falsy fields as
the legacy case and passes the whole envelope through unchanged. -/
theorem c5_falsy_envelope_passthrough :
    verifySettings falsyEnvelope = falsyEnvelope ∧
    hasKeyL falsyEnvelopeFields "version" = true ∧
    hasKeyL falsyEnvelopeFields "checksum" = true ∧
    verifySettings falsyEnvelope ≠ .null ∧
    verifySettings falsyEnvelope ≠ getProp falsyEnvelope "data" ∧
    calculateChecksum (getProp falsyEnvelope "data") ≠ some "" := by
  refine ⟨rfl, rfl, rfl, ?_, ?_, by with_unfolding_all decide⟩
  · intro hne
    rw [show verifySettings falsyEnvelope = JSValue.obj false falsyEnvelopeFields from rfl]
      at hne
    exact JSValue.noConfusion hne
  · intro hne
    rw [show verifySettings falsyEnvelope = JSValue.obj false falsyEnvelopeFields from rfl,
        show getProp falsyEnvelope "data" = JSValue.str "x" from rfl] at hne
    exact JSValue.noConfusion hne

/-- C5 amended: `verifySettings` is total (the model is a plain function);
non-object input fails; an object whose `version` and `checksum` are both
absent-or-falsy is passed through unchanged; otherwise the wrapped data is
returned exactly when the stored checksum is the string equal to the
recomputed digest of the (truthy) data, else the null signal.  Tampering
is therefore detected only up to digest equality: the fallback 32-bit
checksum collides on `"Aa"`/`"BB"`, and the correspondingly mutated signed
envelope verifies to the mutated data. -/
theorem c5_amended_characterization :
    (∀ v, verifySettings v = verifySpecAmended v) ∧
    calculateChecksum (.str "Aa") = calculateChecksum (.str "BB") ∧
    ("Aa" : String) ≠ "BB" ∧
    verifySettings tamperedEnvelope = .str "BB" := by
  refine ⟨fun v => ?_, by with_unfolding_all decide, by decide,
    by with_unfolding_all rfl⟩
  cases v with
  | null => rfl
  | undefined => rfl
  | bool b => cases b <;> rfl
  | num n =>
    unfold verifySettings verifySpecAmended
    rw [if_pos (by simp [isTypeofObject])]
  | str s =>
    unfold verifySettings verifySpecAmended
    rw [if_pos (by simp [isTypeofObject])]
  | arr l => rfl
  | obj p fs =>
    unfold verifySettings verifySpecAmended
    rw [if_neg (by simp [jsTruthy, isTypeofObject])]
    simp only [fieldAbsentOrFalsy]
    rcases Bool.eq_false_or_eq_true (!(jsTruthy (getProp (JSValue.obj p fs) "version")) &&
        !(jsTruthy (getProp (JSValue.obj p fs) "checksum"))) with hleg | hleg
    · simp [hleg]
    · simp only [hleg, Bool.false_eq_true, if_false]
      rcases Bool.eq_false_or_eq_true (jsTruthy (getProp (JSValue.obj p fs) "data"))
        with htr | htr
      · simp only [htr, Bool.not_true, Bool.false_eq_true, if_false]
        cases hcc : calculateChecksum (getProp (JSValue.obj p fs) "data") with
        | none => cases hcs : getProp (JSValue.obj p fs) "checksum" <;> simp [hcc, hcs]
        | some c => cases hcs : getProp (JSValue.obj p fs) "checksum" <;> simp [hcc, hcs]
      · simp [htr]

/-- C6: on the load path, for an enabled, non-blacklisted document with an
enabled schedule over valid `HH:MM` bounds, `shouldApply` equals exactly
the spec's minutes-since-midnight window — `start ≤ now < end` for a
normal window and `now ≥ start ∨ now < end` for an overnight one. -/
theorem c6_schedule_gate (result : JSValue) (domain : String) (now : Nat)
    (sch : JSValue) (s e : String)
    (hen : jsStrictTrue (getProp result "cyberdarkEnabled") = true)
    (hbl : isBlacklisted (.str domain) (getProp (finalSettingsOf result domain) "blacklist")
      = false)
    (hsch : getProp (finalSettingsOf result domain) "schedule" = sch)
    (hscht : jsTruthy sch = true)
    (hsche : jsTruthy (getProp sch "enabled") = true)
    (hs : getProp sch "start" = .str s) (hsv : validTimeString s = true)
    (he : getProp sch "end" = .str e) (hev : validTimeString e = true) :
    loadShouldApply result domain now =
      .ok (scheduleWindowSpec (timeMinutes s) (timeMinutes e) now) := by
  obtain ⟨H1, M1, hsp1, htm1, hH1, hM1⟩ := time_parse s hsv
  obtain ⟨H2, M2, hsp2, htm2, hH2, hM2⟩ := time_parse e hev
  simp only [loadShouldApply, hen, hbl, hsch, hscht, hsche, hs, he, Bool.not_false,
    Bool.and_true, Bool.and_self, if_true, hsp1, hsp2]
  rw [htm1, htm2]
  simp only [getNumAt, List.get?_cons_zero, List.get?_cons_succ, Option.getD_some,
    JSNum.jsMul, JSNum.jsAdd, JSNum.jsLt, JSNum.jsLe]
  have hc1 : ((H1 : ℚ) * 60 + M1) = ((60 * H1 + M1 : ℕ) : ℚ) := by push_cast; ring
  have hc2 : ((H2 : ℚ) * 60 + M2) = ((60 * H2 + M2 : ℕ) : ℚ) := by push_cast; ring
  rw [hc1, hc2]
  simp only [Nat.cast_lt, Nat.cast_le, scheduleWindowSpec]
  by_cases hlt : 60 * H1 + M1 < 60 * H2 + M2 <;> simp [hlt, Nat.cast_lt, Nat.cast_le]

/-- C6 witness: the spec's four concrete cases — overnight 20:00–06:00
applies at 23:00 and not at 12:00; normal 09:00–17:00 applies at 10:00 and
not at 18:00. -/
theorem c6_schedule_gate_witness :
    loadShouldApply storedOvernight "example.com" 1380 = .ok true ∧
    loadShouldApply storedOvernight "example.com" 720 = .ok false ∧
    loadShouldApply storedDaytime "example.com" 600 = .ok true ∧
    loadShouldApply storedDaytime "example.com" 1080 = .ok false := by
  refine ⟨?_, ?_, ?_, ?_⟩
  · rw [c6_schedule_gate storedOvernight "example.com" 1380 overnightSchedule "20:00" "06:00"
      rfl (by with_unfolding_all rfl) rfl rfl rfl rfl (by decide) rfl (by decide)]
    with_unfolding_all rfl
  · rw [c6_schedule_gate storedOvernight "example.com" 720 overnightSchedule "20:00" "06:00"
      rfl (by with_unfolding_all rfl) rfl rfl rfl rfl (by decide) rfl (by decide)]
    with_unfolding_all rfl
  · rw [c6_schedule_gate storedDaytime "example.com" 600 daytimeSchedule "09:00" "17:00"
      rfl (by with_unfolding_all rfl) rfl rfl rfl rfl (by decide) rfl (by decide)]
    with_unfolding_all rfl
  · rw [c6_schedule_gate storedDaytime "example.com" 1080 daytimeSchedule "09:00" "17:00"
      rfl (by with_unfolding_all rfl) rfl rfl rfl rfl (by decide) rfl (by decide)]
    with_unfolding_all rfl

/-- C7: whenever `sanitizePerSiteOverrides` returns a result — for object
input or serialized JSON text alike — that result is a null-prototype map,
none of whose keys is `__proto__`, `constructor` or `prototype`, and each
of whose per-domain overrides is itself a null-prototype object. -/
theorem c7_proto_pollution_guard (v m : JSValue)
    (h : sanitizePerSiteOverrides v = .ok m) : cleanResult m = true := by
  unfold sanitizePerSiteOverrides at h
  cases v with
  | str s =>
    dsimp only at h
    cases hp : jsonParse s with
    | none => rw [hp] at h; injection h with h; subst h; rfl
    | some w => rw [hp] at h; exact sanitizeParsed_clean w m h
  | obj p fs => exact sanitizeParsed_clean _ m h
  | arr l => exact sanitizeParsed_clean _ m h
  | null => injection h with h; subst h; rfl
  | undefined => injection h with h; subst h; rfl
  | bool b => injection h with h; subst h; rfl
  | num n => injection h with h; subst h; rfl

/-- C7 witness: the serialized input `{"__proto__": {...}, "example.com":
{...}}` sanitizes to a map containing only the `example.com` entry, with
no prototype anywhere and no `__proto__` key. -/
theorem c7_proto_pollution_witness :
    sanitizePerSiteOverrides (.str protoJsonInput) = .ok protoJsonOutput ∧
    cleanResult protoJsonOutput = true ∧
    getProp protoJsonOutput "__proto__" = .undefined := by
  refine ⟨?_, ?_, rfl⟩
  · with_unfolding_all rfl
  · exact c7_proto_pollution_guard (.str protoJsonInput) protoJsonOutput
      (by with_unfolding_all rfl)

/-- C8: an input map of more than 100 distinct canonical valid domains
with object values sanitizes to exactly the first 100 entries in insertion
order, each with its sanitized override. -/
theorem c8_overrides_cap (fields : List (String × JSValue))
    (hdom : ∀ kv ∈ fields, sanitizeDomainStr kv.1 = some kv.1)
    (hobj : ∀ kv ∈ fields, isObjectNonNull kv.2 = true)
    (hnd : (fields.map Prod.fst).Nodup)
    (hlen : 100 < fields.length) :
    sanitizePerSiteOverrides (.obj false fields) =
      .ok (.obj true ((fields.map
        (fun kv => (kv.1, JSValue.obj true (entrySanitize kv.2)))).take 100)) ∧
    ((fields.map (fun kv => (kv.1, JSValue.obj true (entrySanitize kv.2)))).take 100).length
      = 100 := by
  have hb : hasOwnBroken (.obj false fields) = false := by
    simp only [hasOwnBroken, Bool.false_or, List.any_eq_false]
    intro kv hkv heq
    have hd := hdom kv hkv
    rw [of_decide_eq_true heq, hasOwnProperty_not_domain] at hd
    exact Option.noConfusion hd
  have hloop := overridesLoop_map _ hb fields []
    (fun kv hm => ⟨hdom kv hm, hobj kv hm⟩)
    (fun kv _ a ha => absurd ha (List.not_mem_nil a)) hnd
  constructor
  · show sanitizeParsedOverrides (.obj false fields) = _
    unfold sanitizeParsedOverrides
    rw [show ownEnumerable (.obj false fields) = fields from rfl, hloop]
    simp only [List.nil_append]
    rw [if_pos (by rw [List.length_map]; exact hlen)]
  · rw [List.length_take, List.length_map]
    omega

set_option maxRecDepth 100000 in
/-- C8 witness: 150 distinct valid domain entries yield exactly 100
sanitized entries — the first 100 in iteration order. -/
theorem c8_overrides_cap_witness :
    sanitizePerSiteOverrides (.obj false fields150) =
      .ok (.obj true ((fields150.map
        (fun kv => (kv.1, JSValue.obj true (entrySanitize kv.2)))).take 100)) ∧
    ((fields150.map (fun kv => (kv.1, JSValue.obj true (entrySanitize kv.2)))).take 100).length
      = 100 :=
  c8_overrides_cap fields150 (by decide) (by decide) (by decide) (by decide)

